import Mathlib

/-!
Verification development for the query-orchestration pipeline
(`src/orchestrator.py`, `src/stravito_client.py`).

The Python code is shallowly embedded: dictionaries returned by the remote
assistant service become the `ApiMessage` structure (absent keys are `none`,
with `otherKeys` recording whether the dictionary carries any key outside the
modelled ones, so that Python's emptiness/falsiness test is expressible);
network calls become oracle inputs (`Fetch`, `CreateOutcome`, `GetOutcome`,
`OrchestratorEnv`) supplied to otherwise pure functions; a Python function
that can raise is embedded with an explicit error constructor in its result
type.  Blocking sleeps and debug printing are not observable in any claim and
are dropped.  Machine integers do not occur (Python integers are unbounded;
all counts here are `Nat`).
-/

namespace Pilot

/-- Python truthiness of an optional string: `None` and `""` are falsy. -/
def pyTruthyStr : Option String → Bool
  | none => false
  | some s => s != ""

/-- Uppercasing, as Python's `str.upper()` on the ASCII states used here
(`response_data.get('state', '').upper()` in `stravito_client.get_message`). -/
def upperString (s : String) : String := ⟨s.data.map Char.toUpper⟩

/-- Splitting a character list at every occurrence of a separator character,
as Python's `str.split(sep)`: `"" → [""]`, separators at the ends produce
empty fragments. -/
def splitOnChar (c : Char) : List Char → List (List Char)
  | [] => [[]]
  | a :: rest =>
    if a = c then [] :: splitOnChar c rest
    else
      match splitOnChar c rest with
      | [] => [[a]]
      | g :: gs => (a :: g) :: gs

/-- Python's `content.split('\n')`. -/
def splitLines (s : String) : List String := (splitOnChar '\n' s.data).map (fun cs => ⟨cs⟩)

/-- Python's `str.strip()`: drop leading and trailing whitespace. -/
def pyStrip (s : String) : String :=
  ⟨((s.data.dropWhile Char.isWhitespace).reverse.dropWhile Char.isWhitespace).reverse⟩

/-- `[line.strip() for line in content.split('\n') if line.strip()]`
(`orchestrator.py`, `analyze_query_angles`). -/
def usableLines (content : String) : List String :=
  ((splitLines content).map pyStrip).filter (fun l => l != "")

/-- One citation entry of a remote answer.  Identity is `sourceId`
(`source.get('sourceId')`, absent key = `none`); the remaining fields stand
for all the other keys a source dictionary may carry, so that two sources
with the same id can still differ. -/
structure Source where
  sourceId : Option String
  title : String
  url : String
deriving DecidableEq, Repr

/-- A message payload returned by the assistant service (the JSON dictionary
`response_data` in `stravito_client.get_message`, which `process_angle`
stores as `data` and `normalize_responses` projects).  Every key the code
reads is an optional field; `otherKeys` records whether the dictionary has
any further key, so `falsy` below is Python's `not data` (empty dict). -/
structure ApiMessage where
  state : Option String
  error : Option String
  message : Option String
  content : Option String
  metadata : Option (List (String × String))
  timestamp : Option String
  status : Option String
  sources : Option (List Source)
  otherKeys : Bool
deriving DecidableEq, Repr

/-- Python's `not data` on the modelled dictionary: true iff it is empty. -/
def ApiMessage.falsy (d : ApiMessage) : Bool :=
  d.state.isNone && d.error.isNone && d.message.isNone && d.content.isNone &&
  d.metadata.isNone && d.timestamp.isNone && d.status.isNone && d.sources.isNone &&
  !d.otherKeys

/-- `state = response_data.get('state', '').upper()` (stravito_client.py). -/
def stateOf (d : ApiMessage) : String := upperString (d.state.getD "")

/-- States on which the polling loop of `get_message` returns:
`COMPLETED`, `FAILED`, `ERROR`.  Every other state falls into the
wait-and-retry branches (`PROCESSING`/`PENDING`/`IN_PROGRESS`/`''`/unknown). -/
def isTerminalState (s : String) : Bool := s == "COMPLETED" || s == "FAILED" || s == "ERROR"

/-- Outcome of one poll attempt (`requests.get` + `raise_for_status` +
`r.json()` inside the loop of `get_message`): either a decoded payload, or a
`requests.exceptions.RequestException`. -/
inductive Fetch
  | resp (r : ApiMessage)
  | exn (e : String)
deriving DecidableEq, Repr

/-- A fetch that takes the wait-and-retry branch of the loop: a successful
response whose state is not terminal.  (A transport exception also retries,
but through the `except` branch, which does not update `response_data`.) -/
def inProgressFetch : Fetch → Bool
  | .resp r => !isTerminalState (stateOf r)
  | .exn _ => false

/-- Observable outcome of `get_message`: a returned payload together with the
number of fetches performed, a propagated transport exception, or the
`NameError`/`UnboundLocalError` raised when the final
`return response_data` reads a variable the loop never assigned. -/
inductive PollOutcome
  | ret (r : ApiMessage) (fetches : Nat)
  | raised (e : String)
  | nameError
deriving DecidableEq, Repr

/-- The `while retry_count < max_retries` polling loop of `get_message`
(stravito_client.py, lines 45-116).  `f` gives the outcome of the i-th fetch;
`retryCount` is the Python `retry_count` (which also counts fetches made so
far, since every iteration performs exactly one fetch); `fuel` is
`max_retries - retry_count`; `last` is the current value of `response_data`
(`none` while unassigned).  On a terminal state the payload is returned; on a
transport exception with the budget exhausted the exception propagates; all
other fetches increment `retry_count` and loop; after the loop the last
assigned `response_data` is returned. -/
def getMessageLoop (f : Nat → Fetch) :
    (retryCount fuel : Nat) → Option ApiMessage → PollOutcome
  | retryCount, 0, some r => .ret r retryCount
  | _, 0, none => .nameError
  | retryCount, fuel' + 1, last =>
    match f retryCount with
    | .exn e => if fuel' = 0 then .raised e else getMessageLoop f (retryCount + 1) fuel' last
    | .resp r =>
      if stateOf r = "COMPLETED" then .ret r (retryCount + 1)
      else if stateOf r = "FAILED" then .ret r (retryCount + 1)
      else if stateOf r = "ERROR" then .ret r (retryCount + 1)
      else getMessageLoop f (retryCount + 1) fuel' (some r)

/-- `get_message(conversation_id, message_id, max_retries, retry_interval)`:
the polling loop started with `retry_count = 0` and `response_data` unbound.
(The sleep between polls and all logging are unobservable and dropped; the
identifiers and URL only select which remote message `f` polls.) -/
def get_message (f : Nat → Fetch) (maxRetries : Nat) : PollOutcome :=
  getMessageLoop f 0 maxRetries none

/-- Outcome of `create_conversation(angle)`: either an exception (non-2xx,
transport failure, JSON decode error) or a decoded response from which
`process_angle` reads `conversationId` and `messageId` (absent key = `none`). -/
inductive CreateOutcome
  | exn (e : String)
  | ok (conversationId : Option String) (messageId : Option String)
deriving DecidableEq, Repr

/-- Outcome of the `get_message(conversation_id, message_id)` call made by
`process_angle`: a returned payload or a propagated exception (transport
error or the unbound-local error; both are `Exception`s caught by
`process_angle`). -/
inductive GetOutcome
  | exn (e : String)
  | ok (d : ApiMessage)
deriving DecidableEq, Repr

/-- How a `PollOutcome` of `get_message` surfaces at its caller. -/
def pollToGetOutcome : PollOutcome → GetOutcome
  | .ret r _ => .ok r
  | .raised e => .exn e
  | .nameError => .exn "NameError: name 'response_data' is not defined"

/-- The remote-service behaviour one angle's branch observes. -/
structure AngleEnv where
  create : CreateOutcome
  getMsg : GetOutcome
deriving DecidableEq, Repr

/-- The dictionary returned by `process_angle`: the success shape
`{angle, conversation_id, message_id, data, error: None}` or the failure
shape `{angle, error, data: None}` (absent keys = `none`). -/
structure AngleResult where
  angle : String
  conversation_id : Option String
  message_id : Option String
  data : Option ApiMessage
  error : Option String
deriving DecidableEq, Repr

/-- `QueryOrchestrator.process_angle` (orchestrator.py, lines 40-78).  The
Python `try/except Exception` around the body is embedded by matching on the
exception constructors of the two remote calls: every exception becomes the
failure dictionary, never a raise. -/
def process_angle (env : AngleEnv) (angle : String) : AngleResult :=
  match env.create with
  | .exn e =>
    { angle := angle, conversation_id := none, message_id := none, data := none,
      error := some ("Exception processing angle '" ++ angle ++ "': " ++ e) }
  | .ok cid mid =>
    if !pyTruthyStr cid then
      { angle := angle, conversation_id := none, message_id := none, data := none,
        error := some "Failed to create conversation." }
    else if !pyTruthyStr mid then
      { angle := angle, conversation_id := none, message_id := none, data := none,
        error := some "No message ID found." }
    else
      match env.getMsg with
      | .exn e =>
        { angle := angle, conversation_id := none, message_id := none, data := none,
          error := some ("Exception processing angle '" ++ angle ++ "': " ++ e) }
      | .ok d =>
        { angle := angle, conversation_id := cid, message_id := mid,
          data := some d, error := none }

/-- The dictionary built by `normalize_responses`, plus the
`contradiction_analysis` key that `check_contradictions` may add later
(`none` = key absent). -/
structure NormalizedResponse where
  angle : String
  conversation_id : String
  message_id : String
  content : String
  metadata : List (String × String)
  timestamp : String
  status : String
  sources : List Source
  contradiction_analysis : Option String
deriving DecidableEq, Repr

/-- `QueryOrchestrator.normalize_responses` (orchestrator.py, lines 80-105):
skip entries whose `error` is truthy, skip entries whose `data` is missing or
an empty dict, project the rest with defaulted fields. -/
def normalize_responses (responses : List AngleResult) : List NormalizedResponse :=
  responses.filterMap fun r =>
    if pyTruthyStr r.error then none
    else
      match r.data with
      | none => none
      | some d =>
        if d.falsy then none
        else some
          { angle := r.angle,
            conversation_id := r.conversation_id.getD "",
            message_id := r.message_id.getD "",
            content := d.content.getD "",
            metadata := d.metadata.getD [],
            timestamp := d.timestamp.getD "",
            status := d.status.getD "",
            sources := d.sources.getD [],
            contradiction_analysis := none }

/-- `QueryOrchestrator.check_contradictions` (orchestrator.py, lines 107-146):
with fewer than two responses the list is returned unchanged; otherwise every
entry gets the same `contradiction_analysis` value — the LLM answer, or the
inline error string when the capability call raises. -/
def check_contradictions (llm : Except String String)
    (responses : List NormalizedResponse) : List NormalizedResponse :=
  if responses.length < 2 then responses
  else
    match llm with
    | .ok analysis =>
      responses.map fun r => { r with contradiction_analysis := some analysis }
    | .error e =>
      responses.map fun r =>
        { r with contradiction_analysis := some ("Error analyzing contradictions: " ++ e) }

/-- One step of the source-deduplication walk in `synthesize_report`
(orchestrator.py, lines 158-165): the accumulator is `(source_map, all_sources)`
with `source_map` reduced to its key set; a source is appended iff its
`sourceId` is truthy and unseen. -/
def dedupStep (acc : List String × List Source) (s : Source) : List String × List Source :=
  match s.sourceId with
  | none => acc
  | some sid =>
    if sid != "" && !(acc.1.contains sid) then (sid :: acc.1, acc.2 ++ [s]) else acc

/-- The `all_sources` list `synthesize_report` collects: walk the responses in
order, and each response's `sources` in order, through `dedupStep`. -/
def collectSources (responses : List NormalizedResponse) : List Source :=
  (responses.foldl (fun acc r => r.sources.foldl dedupStep acc) ([], [])).2

/-- The same walk on an already-flat source list. -/
def dedupSources (sources : List Source) : List Source :=
  (sources.foldl dedupStep ([], [])).2

/-- All sources of a response list, response order first, in-response order
second — the order in which `synthesize_report`'s nested loop encounters
them. -/
def allSourcesOf (responses : List NormalizedResponse) : List Source :=
  responses.foldr (fun r acc => r.sources ++ acc) []

/-- The filter "this source carries id `sid`". -/
def byId (sid : String) (s : Source) : Bool := s.sourceId == some sid

/-- Recursive characterization of the deduplicating walk, carrying the set of
already-seen ids; used to reason about the `dedupStep` folds. -/
def dedupRec (seen : List String) : List Source → List Source
  | [] => []
  | s :: rest =>
    match s.sourceId with
    | none => dedupRec seen rest
    | some sid =>
      if sid != "" && !(seen.contains sid) then s :: dedupRec (sid :: seen) rest
      else dedupRec seen rest

/-- The dictionary returned by `QueryOrchestrator.synthesize_report`: either
the error shape `{"error": ...}` or the full report (whose `timestamp` is the
event-loop clock value, taken here as an input). -/
inductive SynthesizedReport
  | err (msg : String)
  | ok (original_query : String) (synthesized_report : String)
      (source_angles : List String) (total_angles_processed : Nat)
      (sources : List Source) (timestamp : Nat)
deriving DecidableEq, Repr

/-- `QueryOrchestrator.synthesize_report` (orchestrator.py, lines 148-203):
empty input short-circuits to the `"No valid responses to synthesize"` error
dict; otherwise sources are collected and deduplicated, and the LLM call
either completes the report or collapses to an error dict. -/
def synthesize_report (llm : Except String String)
    (responses : List NormalizedResponse) (original_query : String)
    (now : Nat) : SynthesizedReport :=
  if responses.isEmpty then .err "No valid responses to synthesize"
  else
    let all_sources := collectSources responses
    match llm with
    | .ok text =>
      .ok original_query text (responses.map (·.angle)) responses.length all_sources now
    | .error e => .err ("Failed to synthesize report: " ++ e)

/-- `analyze_query_angles` (orchestrator.py, lines 21-38): the LLM call
either raises (propagated) or returns text, whose non-blank stripped lines
are the angles.  There is no emptiness check: zero usable lines yields `[]`. -/
def analyze_query_angles (llm : Except String String) : Except String (List String) :=
  llm.map usableLines

/-- `[self.process_angle(angle) for angle in angles]` +
`asyncio.gather(*tasks, return_exceptions=True)`: one outcome per angle, in
submission order (gather preserves task order); `env i` is the remote
behaviour the i-th branch observes.  `process_angle` never raises, so the
`isinstance(response, Exception)` filter in `orchestrate_query` never drops
an entry. -/
def fanOutAux (env : Nat → AngleEnv) (i : Nat) : List String → List AngleResult
  | [] => []
  | a :: rest => process_angle (env i) a :: fanOutAux env (i + 1) rest

/-- The fan-out stage started at index 0. -/
def fanOut (env : Nat → AngleEnv) (angles : List String) : List AngleResult :=
  fanOutAux env 0 angles

/-- Everything external one `orchestrate_query` call observes: the
angle-generation LLM call, the per-branch remote behaviour, the
contradiction and synthesis LLM calls, and the event-loop clock. -/
structure OrchestratorEnv where
  angleLLM : Except String String
  angleEnvs : Nat → AngleEnv
  contraLLM : Except String String
  synthLLM : Except String String
  now : Nat

/-- The dictionary returned by `QueryOrchestrator.orchestrate_query`: the
success shape `{success: True, original_query, angles_generated,
responses_processed, final_report, raw_responses}` or the failure shape
`{success: False, error, original_query}`. -/
inductive OrchestrationResult
  | ok (original_query : String) (angles_generated : List String)
      (responses_processed : Nat) (final_report : SynthesizedReport)
      (raw_responses : List NormalizedResponse)
  | failed (error : String) (original_query : String)
deriving DecidableEq, Repr

/-- `QueryOrchestrator.orchestrate_query` (orchestrator.py, lines 205-264):
generate angles (an exception here reaches the top-level `except` and yields
the failure dict), fan out, keep the outcomes whose `error` is `None`
(`responses_processed` counts these), normalize, annotate contradictions,
synthesize, and assemble the success dict — whose `raw_responses` is the
annotated *normalized* list, not the fan-out list. -/
def orchestrate_query (env : OrchestratorEnv) (query : String) : OrchestrationResult :=
  match analyze_query_angles env.angleLLM with
  | .error e => .failed e query
  | .ok angles =>
    let raw_responses := fanOut env.angleEnvs angles
    let valid_responses := raw_responses.filter (fun r => r.error.isNone)
    let normalized_responses := normalize_responses valid_responses
    let analyzed_responses := check_contradictions env.contraLLM normalized_responses
    let final_report := synthesize_report env.synthLLM analyzed_responses query env.now
    .ok query angles valid_responses.length final_report analyzed_responses

/-! ### Concrete instances used by witnesses and counterexamples -/

/-- The empty JSON dictionary `{}` as a message payload (Python-falsy). -/
def emptyMsg : ApiMessage := ⟨none, none, none, none, none, none, none, none, false⟩

/-- A payload still in state `PROCESSING`. -/
def processingMsg : ApiMessage :=
  { state := some "PROCESSING", error := none, message := none, content := none,
    metadata := none, timestamp := none, status := none, sources := none, otherKeys := false }

/-- A payload in terminal state `COMPLETED`. -/
def completedMsg : ApiMessage :=
  { state := some "COMPLETED", error := none, message := some "final answer",
    content := some "final answer", metadata := none, timestamp := none,
    status := none, sources := some [], otherKeys := false }

/-- A payload in terminal state `FAILED` carrying a remote-reported error. -/
def failedMsg : ApiMessage :=
  { state := some "FAILED", error := some "remote failure", message := none,
    content := none, metadata := none, timestamp := none, status := none,
    sources := none, otherKeys := false }

/-- A successfully completed payload with one citation. -/
def goodMsg : ApiMessage :=
  { state := some "COMPLETED", error := none, message := some "body",
    content := some "answer text", metadata := none, timestamp := none,
    status := none, sources := some [⟨some "A", "Title A", "url-a"⟩], otherKeys := false }

/-- Environment where the single angle's branch succeeds but the remote
payload is the empty dictionary, so normalization drops it while it still
counts as a valid (error-free) response. -/
def c1Env : OrchestratorEnv :=
  { angleLLM := .ok "angle one",
    angleEnvs := fun _ => { create := .ok (some "c1") (some "m1"), getMsg := .ok emptyMsg },
    contraLLM := .ok "analysis", synthLLM := .ok "report", now := 0 }

/-- Environment where the angle-generation capability returns empty text, so
there are zero usable lines. -/
def c2Env : OrchestratorEnv :=
  { angleLLM := .ok "",
    angleEnvs := fun _ => ⟨.exn "unused", .exn "unused"⟩,
    contraLLM := .ok "analysis", synthLLM := .ok "report", now := 0 }

/-- Environment where the only angle's conversation-creation call raises, so
no branch survives to synthesis. -/
def c4Env : OrchestratorEnv :=
  { angleLLM := .ok "only angle",
    angleEnvs := fun _ => ⟨.exn "create boom", .exn "unused"⟩,
    contraLLM := .ok "analysis", synthLLM := .ok "report", now := 0 }

/-- Per-branch environment where exactly branch 0's conversation creation
raises and every other branch succeeds. -/
def c5Env : Nat → AngleEnv := fun i =>
  if i = 0 then ⟨.exn "connection refused", .exn "unused"⟩
  else ⟨.ok (some "conv") (some "msg"), .ok goodMsg⟩

/-- Remote state sequence `PROCESSING, PROCESSING, COMPLETED, ...`. -/
def c6Fetches : Nat → Fetch := fun i =>
  if i < 2 then .resp processingMsg else .resp completedMsg

/-- Citation entries for the deduplication cases: two sources sharing id
`"A"` with different fields, a distinct id `"B"`, an empty-string id and a
missing id. -/
def srcA : Source := ⟨some "A", "Title A", "url-a"⟩

/-- Second source with id `"A"` but different fields. -/
def srcA2 : Source := ⟨some "A", "Different title", "url-a-2"⟩

/-- Source with id `"B"`. -/
def srcB : Source := ⟨some "B", "Title B", "url-b"⟩

/-- Source whose id is the empty string (Python-falsy). -/
def srcBlank : Source := ⟨some "", "Blank id", "url-blank"⟩

/-- Source with no `sourceId` key. -/
def srcNone : Source := ⟨none, "No id", "url-none"⟩

/-- A normalized response carrying the given sources. -/
def mkResp (srcs : List Source) : NormalizedResponse :=
  { angle := "a", conversation_id := "c", message_id := "m", content := "t",
    metadata := [], timestamp := "", status := "", sources := srcs,
    contradiction_analysis := none }

/-! ### Helper lemmas -/

theorem process_angle_angle (env : AngleEnv) (a : String) :
    (process_angle env a).angle = a := by
  unfold process_angle
  cases env.create with
  | exn e => rfl
  | ok cid mid =>
    dsimp only
    split
    · rfl
    · split
      · rfl
      · cases env.getMsg <;> rfl

theorem fanOutAux_length (env : Nat → AngleEnv) :
    ∀ (angles : List String) (i : Nat), (fanOutAux env i angles).length = angles.length := by
  intro angles
  induction angles with
  | nil => intro i; rfl
  | cons a rest ih => intro i; simp [fanOutAux, ih]

theorem fanOut_length (env : Nat → AngleEnv) (angles : List String) :
    (fanOut env angles).length = angles.length :=
  fanOutAux_length env angles 0

theorem fanOutAux_getElem? (env : Nat → AngleEnv) :
    ∀ (angles : List String) (b k : Nat),
      (fanOutAux env b angles)[k]? = (angles[k]?).map (fun a => process_angle (env (b + k)) a) := by
  intro angles
  induction angles with
  | nil => intro b k; simp [fanOutAux]
  | cons a rest ih =>
    intro b k
    cases k with
    | zero => simp [fanOutAux]
    | succ k =>
      simp only [fanOutAux, List.getElem?_cons_succ, ih (b + 1) k]
      have : b + 1 + k = b + (k + 1) := by omega
      rw [this]

theorem fanOut_getElem? (env : Nat → AngleEnv) (angles : List String) (k : Nat) :
    (fanOut env angles)[k]? = (angles[k]?).map (fun a => process_angle (env k) a) := by
  rw [fanOut, fanOutAux_getElem?]
  simp

theorem check_contradictions_length (llm : Except String String)
    (rs : List NormalizedResponse) :
    (check_contradictions llm rs).length = rs.length := by
  unfold check_contradictions
  split
  · rfl
  · cases llm <;> simp

theorem normalize_responses_length_le (rs : List AngleResult) :
    (normalize_responses rs).length ≤ rs.length :=
  List.length_filterMap_le _ rs

theorem byId_eq_false_of_ne (sid sid' : String) (a : Source)
    (ha : a.sourceId = some sid') (hne : sid' ≠ sid) : byId sid a = false := by
  simp [byId, ha]
  exact hne

theorem byId_none_eq_false (sid : String) (a : Source) (ha : a.sourceId = none) :
    byId sid a = false := by
  simp [byId, ha]

theorem foldl_dedupStep_snd (l : List Source) :
    ∀ (seen : List String) (out : List Source),
      (l.foldl dedupStep (seen, out)).2 = out ++ dedupRec seen l := by
  induction l with
  | nil => intro seen out; simp [dedupRec]
  | cons s rest ih =>
    intro seen out
    simp only [List.foldl_cons]
    cases hsid : s.sourceId with
    | none =>
      have hstep : dedupStep (seen, out) s = (seen, out) := by
        simp only [dedupStep, hsid]
      have hrec : dedupRec seen (s :: rest) = dedupRec seen rest := by
        simp only [dedupRec, hsid]
      rw [hstep, ih, hrec]
    | some sid =>
      cases hkeep : (sid != "" && !(seen.contains sid)) with
      | true =>
        have hstep : dedupStep (seen, out) s = (sid :: seen, out ++ [s]) := by
          simp only [dedupStep, hsid]
          rw [hkeep, if_pos rfl]
        have hrec : dedupRec seen (s :: rest) = s :: dedupRec (sid :: seen) rest := by
          simp only [dedupRec, hsid]
          rw [hkeep, if_pos rfl]
        rw [hstep, ih, hrec]
        simp
      | false =>
        have hstep : dedupStep (seen, out) s = (seen, out) := by
          simp only [dedupStep, hsid]
          rw [hkeep, if_neg Bool.false_ne_true]
        have hrec : dedupRec seen (s :: rest) = dedupRec seen rest := by
          simp only [dedupRec, hsid]
          rw [hkeep, if_neg Bool.false_ne_true]
        rw [hstep, ih, hrec]

theorem dedupSources_eq (l : List Source) : dedupSources l = dedupRec [] l := by
  rw [dedupSources, foldl_dedupStep_snd]
  simp

theorem collect_foldl_eq (rs : List NormalizedResponse) :
    ∀ sp : List String × List Source,
      rs.foldl (fun acc r => r.sources.foldl dedupStep acc) sp
        = (allSourcesOf rs).foldl dedupStep sp := by
  induction rs with
  | nil => intro sp; rfl
  | cons r rest ih =>
    intro sp
    simp only [List.foldl_cons, allSourcesOf, List.foldr_cons]
    rw [ih, List.foldl_append]
    rfl

theorem collectSources_eq (rs : List NormalizedResponse) :
    collectSources rs = dedupRec [] (allSourcesOf rs) := by
  rw [collectSources, collect_foldl_eq]
  have := foldl_dedupStep_snd (allSourcesOf rs) [] []
  simpa using this

theorem dedupRec_mem (l : List Source) :
    ∀ (seen : List String) (s : Source), s ∈ dedupRec seen l →
      ∃ sid, s.sourceId = some sid ∧ sid ≠ "" := by
  induction l with
  | nil => intro seen s h; simp [dedupRec] at h
  | cons a rest ih =>
    intro seen s h
    cases ha : a.sourceId with
    | none =>
      have hrec : dedupRec seen (a :: rest) = dedupRec seen rest := by
        simp only [dedupRec, ha]
      rw [hrec] at h
      exact ih seen s h
    | some sid =>
      cases hkeep : (sid != "" && !(seen.contains sid)) with
      | true =>
        have hrec : dedupRec seen (a :: rest) = a :: dedupRec (sid :: seen) rest := by
          simp only [dedupRec, ha]
          rw [hkeep, if_pos rfl]
        rw [hrec] at h
        rcases List.mem_cons.mp h with h | h
        · subst h
          refine ⟨sid, ha, ?_⟩
          have hb := (Bool.and_eq_true _ _).mp hkeep
          simpa using hb.1
        · exact ih (sid :: seen) s h
      | false =>
        have hrec : dedupRec seen (a :: rest) = dedupRec seen rest := by
          simp only [dedupRec, ha]
          rw [hkeep, if_neg Bool.false_ne_true]
        rw [hrec] at h
        exact ih seen s h

theorem dedupRec_filter_of_seen (sid : String) (l : List Source) :
    ∀ seen : List String, seen.contains sid = true →
      (dedupRec seen l).filter (byId sid) = [] := by
  induction l with
  | nil => intro seen _; simp [dedupRec]
  | cons a rest ih =>
    intro seen hseen
    cases ha : a.sourceId with
    | none =>
      have hrec : dedupRec seen (a :: rest) = dedupRec seen rest := by
        simp only [dedupRec, ha]
      rw [hrec]
      exact ih seen hseen
    | some sid' =>
      cases hkeep : (sid' != "" && !(seen.contains sid')) with
      | true =>
        have hrec : dedupRec seen (a :: rest) = a :: dedupRec (sid' :: seen) rest := by
          simp only [dedupRec, ha]
          rw [hkeep, if_pos rfl]
        have hne : sid' ≠ sid := by
          intro hcontra
          have hb := (Bool.and_eq_true _ _).mp hkeep
          have hfalse : seen.contains sid' = false := by simpa using hb.2
          rw [hcontra, hseen] at hfalse
          simp at hfalse
        have hba : byId sid a = false := byId_eq_false_of_ne sid sid' a ha hne
        rw [hrec, List.filter_cons_of_neg (by simp [hba])]
        exact ih (sid' :: seen) (by
          simp only [List.contains_cons, Bool.or_eq_true]
          exact Or.inr hseen)
      | false =>
        have hrec : dedupRec seen (a :: rest) = dedupRec seen rest := by
          simp only [dedupRec, ha]
          rw [hkeep, if_neg Bool.false_ne_true]
        rw [hrec]
        exact ih seen hseen

theorem dedupRec_filter_first (sid : String) (hsid : sid ≠ "") (l : List Source) :
    ∀ seen : List String, seen.contains sid = false →
      (dedupRec seen l).filter (byId sid) = (l.filter (byId sid)).take 1 := by
  induction l with
  | nil => intro seen _; simp [dedupRec]
  | cons a rest ih =>
    intro seen hnot
    cases ha : a.sourceId with
    | none =>
      have hba : byId sid a = false := byId_none_eq_false sid a ha
      have hrec : dedupRec seen (a :: rest) = dedupRec seen rest := by
        simp only [dedupRec, ha]
      rw [hrec, List.filter_cons_of_neg (by simp [hba])]
      exact ih seen hnot
    | some sid' =>
      by_cases heq : sid' = sid
      · subst heq
        have hkeep : (sid' != "" && !(seen.contains sid')) = true := by
          rw [Bool.and_eq_true]
          refine ⟨by simpa using hsid, ?_⟩
          rw [hnot]
          rfl
        have hrec : dedupRec seen (a :: rest) = a :: dedupRec (sid' :: seen) rest := by
          simp only [dedupRec, ha]
          rw [hkeep, if_pos rfl]
        have hba : byId sid' a = true := by simp [byId, ha]
        rw [hrec, List.filter_cons_of_pos (by simp [hba]),
          List.filter_cons_of_pos (by simp [hba]),
          dedupRec_filter_of_seen sid' rest (sid' :: seen) (by simp [List.contains_cons])]
        simp
      · have hba : byId sid a = false := byId_eq_false_of_ne sid sid' a ha heq
        cases hkeep : (sid' != "" && !(seen.contains sid')) with
        | true =>
          have hrec : dedupRec seen (a :: rest) = a :: dedupRec (sid' :: seen) rest := by
            simp only [dedupRec, ha]
            rw [hkeep, if_pos rfl]
          have hnot' : (sid' :: seen).contains sid = false := by
            simp only [List.contains_cons, Bool.or_eq_false_iff]
            exact ⟨beq_eq_false_iff_ne.mpr (fun h => heq h.symm), hnot⟩
          rw [hrec, List.filter_cons_of_neg (by simp [hba]),
            List.filter_cons_of_neg (by simp [hba])]
          exact ih (sid' :: seen) hnot'
        | false =>
          have hrec : dedupRec seen (a :: rest) = dedupRec seen rest := by
            simp only [dedupRec, ha]
            rw [hkeep, if_neg Bool.false_ne_true]
          rw [hrec, List.filter_cons_of_neg (by simp [hba])]
          exact ih seen hnot

theorem dedupRec_filter_blank (l : List Source) (seen : List String) :
    (dedupRec seen l).filter (byId "") = [] := by
  rw [List.filter_eq_nil_iff]
  intro s hs
  obtain ⟨sid, hsid, hne⟩ := dedupRec_mem l seen s hs
  simp [byId, hsid]
  exact hne

theorem getMessageLoop_completed (f : Nat → Fetch) (r : ApiMessage)
    (hcomp : stateOf r = "COMPLETED") :
    ∀ (k b fuel : Nat) (last : Option ApiMessage), k < fuel →
      (∀ i, i < k → inProgressFetch (f (b + i)) = true) →
      f (b + k) = .resp r →
      getMessageLoop f b fuel last = .ret r (b + k + 1) := by
  intro k
  induction k with
  | zero =>
    intro b fuel last hlt hpre hfk
    obtain ⟨fuel', rfl⟩ : ∃ fuel', fuel = fuel' + 1 := ⟨fuel - 1, by omega⟩
    rw [Nat.add_zero] at hfk
    simp only [getMessageLoop, hfk]
    rw [if_pos hcomp]
  | succ k ih =>
    intro b fuel last hlt hpre hfk
    obtain ⟨fuel', rfl⟩ : ∃ fuel', fuel = fuel' + 1 := ⟨fuel - 1, by omega⟩
    have h0 : inProgressFetch (f b) = true := by
      have h := hpre 0 (Nat.succ_pos k)
      rw [Nat.add_zero] at h
      exact h
    cases hfb : f b with
    | exn e =>
      rw [hfb] at h0
      simp [inProgressFetch] at h0
    | resp r0 =>
      rw [hfb] at h0
      have hnt : isTerminalState (stateOf r0) = false := by
        simpa [inProgressFetch] using h0
      have hnc : ¬ stateOf r0 = "COMPLETED" := by
        intro hcontra
        rw [hcontra] at hnt
        simp [isTerminalState] at hnt
      have hnf : ¬ stateOf r0 = "FAILED" := by
        intro hcontra
        rw [hcontra] at hnt
        simp [isTerminalState] at hnt
      have hne : ¬ stateOf r0 = "ERROR" := by
        intro hcontra
        rw [hcontra] at hnt
        simp [isTerminalState] at hnt
      simp only [getMessageLoop, hfb]
      rw [if_neg hnc, if_neg hnf, if_neg hne]
      have harg : ∀ i, i < k → inProgressFetch (f (b + 1 + i)) = true := by
        intro i hi
        have h := hpre (i + 1) (by omega)
        have heq : b + (i + 1) = b + 1 + i := by omega
        rw [heq] at h
        exact h
      have hfk' : f (b + 1 + k) = .resp r := by
        have heq : b + 1 + k = b + (k + 1) := by omega
        rw [heq]
        exact hfk
      have hres := ih (b + 1) fuel' (some r0) (by omega) harg hfk'
      rw [hres]
      have e1 : b + 1 + k + 1 = b + (k + 1) + 1 := by omega
      rw [e1]

theorem getMessageLoop_exhaust (f : Nat → Fetch) (rs : Nat → ApiMessage) :
    ∀ (fuel b : Nat) (last : Option ApiMessage), 1 ≤ fuel →
      (∀ i, i < fuel → f (b + i) = .resp (rs (b + i)) ∧
        isTerminalState (stateOf (rs (b + i))) = false) →
      getMessageLoop f b fuel last = .ret (rs (b + fuel - 1)) (b + fuel) := by
  intro fuel
  induction fuel with
  | zero =>
    intro b last h
    omega
  | succ fuel' ih =>
    intro b last _ hall
    obtain ⟨hfb, hnt⟩ := hall 0 (by omega)
    rw [Nat.add_zero] at hfb hnt
    have hnc : ¬ stateOf (rs b) = "COMPLETED" := by
      intro hcontra
      rw [hcontra] at hnt
      simp [isTerminalState] at hnt
    have hnf : ¬ stateOf (rs b) = "FAILED" := by
      intro hcontra
      rw [hcontra] at hnt
      simp [isTerminalState] at hnt
    have hne : ¬ stateOf (rs b) = "ERROR" := by
      intro hcontra
      rw [hcontra] at hnt
      simp [isTerminalState] at hnt
    simp only [getMessageLoop, hfb]
    rw [if_neg hnc, if_neg hnf, if_neg hne]
    cases fuel' with
    | zero =>
      have e1 : b + (0 + 1) - 1 = b := by omega
      have e2 : b + (0 + 1) = b + 1 := by omega
      rw [e1, e2]
      simp only [getMessageLoop]
    | succ fuel'' =>
      have harg : ∀ i, i < fuel'' + 1 → f (b + 1 + i) = .resp (rs (b + 1 + i)) ∧
          isTerminalState (stateOf (rs (b + 1 + i))) = false := by
        intro i hi
        have h := hall (i + 1) (by omega)
        have heq : b + (i + 1) = b + 1 + i := by omega
        rw [heq] at h
        exact h
      have hres := ih (b + 1) (some (rs b)) (by omega) harg
      rw [hres]
      have e1 : b + 1 + (fuel'' + 1) - 1 = b + (fuel'' + 1 + 1) - 1 := by omega
      have e2 : b + 1 + (fuel'' + 1) = b + (fuel'' + 1 + 1) := by omega
      rw [e1, e2]

theorem getMessageLoop_ret_fetched (f : Nat → Fetch) :
    ∀ (fuel b : Nat) (last : Option ApiMessage) (r : ApiMessage) (c : Nat),
      (∀ r0, last = some r0 → ∃ i, i < b ∧ f i = .resp r0) →
      getMessageLoop f b fuel last = .ret r c →
      ∃ i, i < b + fuel ∧ f i = .resp r := by
  intro fuel
  induction fuel with
  | zero =>
    intro b last r c hinv hret
    cases last with
    | none =>
      simp only [getMessageLoop] at hret
      exact PollOutcome.noConfusion hret
    | some r0 =>
      simp only [getMessageLoop] at hret
      injection hret with h1 h2
      obtain ⟨i, hi, hf⟩ := hinv r0 rfl
      refine ⟨i, by omega, ?_⟩
      rw [← h1]
      exact hf
  | succ fuel' ih =>
    intro b last r c hinv hret
    cases hfb : f b with
    | exn e =>
      simp only [getMessageLoop, hfb] at hret
      by_cases h0 : fuel' = 0
      · rw [if_pos h0] at hret
        exact PollOutcome.noConfusion hret
      · rw [if_neg h0] at hret
        have hinv' : ∀ r0, last = some r0 → ∃ i, i < b + 1 ∧ f i = .resp r0 := by
          intro r0 h
          obtain ⟨i, hi, hf⟩ := hinv r0 h
          exact ⟨i, by omega, hf⟩
        obtain ⟨i, hi, hf⟩ := ih (b + 1) last r c hinv' hret
        exact ⟨i, by omega, hf⟩
    | resp r0 =>
      simp only [getMessageLoop, hfb] at hret
      by_cases hc : stateOf r0 = "COMPLETED"
      · rw [if_pos hc] at hret
        injection hret with h1 h2
        refine ⟨b, by omega, ?_⟩
        rw [← h1]
        exact hfb
      · rw [if_neg hc] at hret
        by_cases hfl : stateOf r0 = "FAILED"
        · rw [if_pos hfl] at hret
          injection hret with h1 h2
          refine ⟨b, by omega, ?_⟩
          rw [← h1]
          exact hfb
        · rw [if_neg hfl] at hret
          by_cases her : stateOf r0 = "ERROR"
          · rw [if_pos her] at hret
            injection hret with h1 h2
            refine ⟨b, by omega, ?_⟩
            rw [← h1]
            exact hfb
          · rw [if_neg her] at hret
            have hinv' : ∀ r1, (some r0 : Option ApiMessage) = some r1 →
                ∃ i, i < b + 1 ∧ f i = .resp r1 := by
              intro r1 h
              injection h with h
              refine ⟨b, by omega, ?_⟩
              rw [← h]
              exact hfb
            obtain ⟨i, hi, hf⟩ := ih (b + 1) (some r0) r c hinv' hret
            exact ⟨i, by omega, hf⟩

theorem dedupRec_idem (l : List Source) :
    ∀ seen : List String, dedupRec seen (dedupRec seen l) = dedupRec seen l := by
  induction l with
  | nil => intro seen; rfl
  | cons a rest ih =>
    intro seen
    cases ha : a.sourceId with
    | none =>
      have hrec : dedupRec seen (a :: rest) = dedupRec seen rest := by
        simp only [dedupRec, ha]
      rw [hrec]
      exact ih seen
    | some sid =>
      cases hkeep : (sid != "" && !(seen.contains sid)) with
      | true =>
        have h1 : dedupRec seen (a :: rest) = a :: dedupRec (sid :: seen) rest := by
          simp only [dedupRec, ha]
          rw [hkeep, if_pos rfl]
        have h2 : dedupRec seen (a :: dedupRec (sid :: seen) rest)
            = a :: dedupRec (sid :: seen) (dedupRec (sid :: seen) rest) := by
          simp only [dedupRec, ha]
          rw [hkeep, if_pos rfl]
        rw [h1, h2, ih (sid :: seen)]
      | false =>
        have hrec : dedupRec seen (a :: rest) = dedupRec seen rest := by
          simp only [dedupRec, ha]
          rw [hkeep, if_neg Bool.false_ne_true]
        rw [hrec]
        exact ih seen

/-! ### Claims -/

/-- C1 (amended): in every successful `orchestrate_query` result,
`responses_processed` counts the error-free fan-out outcomes, so
`len(raw_responses) ≤ responses_processed ≤ len(angles_generated)`; the
claimed equality `responses_processed == len(raw_responses)` does not hold in
general because `normalize_responses` additionally drops error-free outcomes
whose `data` is missing or an empty dict. -/
theorem C1_processed_bounds (env : OrchestratorEnv) (query q : String)
    (angles : List String) (n : Nat) (report : SynthesizedReport)
    (raws : List NormalizedResponse)
    (h : orchestrate_query env query = .ok q angles n report raws) :
    raws.length ≤ n ∧ n ≤ angles.length := by
  unfold orchestrate_query at h
  cases hllm : analyze_query_angles env.angleLLM with
  | error e =>
    rw [hllm] at h
    exact OrchestrationResult.noConfusion h
  | ok angles0 =>
    rw [hllm] at h
    injection h with h1 h2 h3 h4 h5
    constructor
    · rw [← h5, ← h3]
      calc (check_contradictions env.contraLLM
              (normalize_responses
                ((fanOut env.angleEnvs angles0).filter (fun r => r.error.isNone)))).length
          = (normalize_responses
              ((fanOut env.angleEnvs angles0).filter (fun r => r.error.isNone))).length :=
            check_contradictions_length _ _
        _ ≤ ((fanOut env.angleEnvs angles0).filter (fun r => r.error.isNone)).length :=
            normalize_responses_length_le _
    · rw [← h3, ← h2]
      calc ((fanOut env.angleEnvs angles0).filter (fun r => r.error.isNone)).length
          ≤ (fanOut env.angleEnvs angles0).length := List.length_filter_le _ _
        _ = angles0.length := fanOut_length _ _

/-- C1 witness: the bounds instantiated at `c1Env`. -/
theorem C1_processed_bounds_witness :
    ([] : List NormalizedResponse).length ≤ 1 ∧ 1 ≤ (["angle one"] : List String).length :=
  C1_processed_bounds c1Env "q" "q" ["angle one"] 1
    (.err "No valid responses to synthesize") [] (by decide)

/-- C1 counterexample: with one angle whose branch succeeds but returns the
empty dictionary, `responses_processed = 1` while `raw_responses = []`, so
`responses_processed == len(raw_responses)` fails. -/
theorem C1_counterexample :
    orchestrate_query c1Env "q" =
      .ok "q" ["angle one"] 1 (.err "No valid responses to synthesize") [] ∧
    (1 : Nat) ≠ ([] : List NormalizedResponse).length := by
  constructor
  · decide
  · decide

/-- C2 (amended): zero usable lines from angle generation is not a terminal
failure: `analyze_query_angles` returns the empty list without raising and
`orchestrate_query` returns the success shape (`success == true`, no `error`
key), with zero responses processed and the final report carrying
`"No valid responses to synthesize"`. -/
theorem C2_zero_angles_still_success (env : OrchestratorEnv) (query content : String)
    (hllm : env.angleLLM = .ok content)
    (hempty : usableLines content = []) :
    analyze_query_angles env.angleLLM = .ok [] ∧
    orchestrate_query env query =
      .ok query [] 0 (.err "No valid responses to synthesize") [] := by
  have ha : analyze_query_angles env.angleLLM = .ok [] := by
    rw [hllm]
    show Except.ok (usableLines content) = Except.ok []
    rw [hempty]
  refine ⟨ha, ?_⟩
  unfold orchestrate_query
  rw [ha]
  rfl

/-- C2 witness: the amended behaviour at `c2Env`. -/
theorem C2_zero_angles_still_success_witness :
    analyze_query_angles c2Env.angleLLM = .ok [] ∧
    orchestrate_query c2Env "q" =
      .ok "q" [] 0 (.err "No valid responses to synthesize") [] :=
  C2_zero_angles_still_success c2Env "q" "" rfl (by decide)

/-- C2 counterexample: the text-generation capability returns empty text (zero
angles), yet the orchestration result is the success constructor, not the
`success=false`/non-empty-error shape the claim requires. -/
theorem C2_counterexample :
    orchestrate_query c2Env "q" =
      .ok "q" [] 0 (.err "No valid responses to synthesize") [] := by
  decide

/-- C3 (amended): on a poll fetch reporting terminal `FAILED` (or `ERROR`)
state, `get_message` stops polling and returns the remote payload — carrying
the remote-reported error — without raising; but the `AngleResult` built by
`process_angle` from it has `error == none` (the success shape), with the
failed payload stored in `data`, i.e. it is not marked as a failure. -/
theorem C3_failed_state_returned_unmarked (r : ApiMessage) (f : Nat → Fetch) (m : Nat)
    (hf0 : f 0 = .resp r) (hm : 0 < m)
    (hstate : stateOf r = "FAILED" ∨ stateOf r = "ERROR")
    (angle cid mid : String) (hcid : cid ≠ "") (hmid : mid ≠ "") :
    get_message f m = .ret r 1 ∧
    process_angle ⟨.ok (some cid) (some mid), pollToGetOutcome (get_message f m)⟩ angle =
      { angle := angle, conversation_id := some cid, message_id := some mid,
        data := some r, error := none } := by
  have hget : get_message f m = .ret r 1 := by
    obtain ⟨m', rfl⟩ : ∃ m', m = m' + 1 := ⟨m - 1, by omega⟩
    show getMessageLoop f 0 (m' + 1) none = .ret r 1
    simp only [getMessageLoop, hf0]
    have hnc : ¬ stateOf r = "COMPLETED" := by
      rcases hstate with h | h <;> rw [h] <;> decide
    rw [if_neg hnc]
    rcases hstate with h | h
    · rw [if_pos h]
    · have hnf : ¬ stateOf r = "FAILED" := by
        rw [h]
        decide
      rw [if_neg hnf, if_pos h]
  refine ⟨hget, ?_⟩
  rw [hget]
  have hc : (!pyTruthyStr (some cid)) = false := by
    simp [pyTruthyStr]
    exact hcid
  have hm2 : (!pyTruthyStr (some mid)) = false := by
    simp [pyTruthyStr]
    exact hmid
  simp only [process_angle, pollToGetOutcome]
  rw [hc, if_neg Bool.false_ne_true, hm2, if_neg Bool.false_ne_true]

/-- C3 witness: the amended behaviour at a concrete `FAILED` payload. -/
theorem C3_failed_state_returned_unmarked_witness :
    get_message (fun _ => .resp failedMsg) 60 = .ret failedMsg 1 ∧
    process_angle ⟨.ok (some "c1") (some "m1"),
        pollToGetOutcome (get_message (fun _ => .resp failedMsg) 60)⟩ "a" =
      { angle := "a", conversation_id := some "c1", message_id := some "m1",
        data := some failedMsg, error := none } :=
  C3_failed_state_returned_unmarked failedMsg (fun _ => .resp failedMsg) 60 rfl
    (by decide) (Or.inl (by decide)) "a" "c1" "m1" (by decide) (by decide)

/-- C3 counterexample: with the poll reporting `FAILED` (remote error
`"remote failure"`), the resulting `AngleResult` has `error = none`, not the
non-null error field the claim requires. -/
theorem C3_counterexample :
    get_message (fun _ => .resp failedMsg) 60 = .ret failedMsg 1 ∧
    (process_angle ⟨.ok (some "c1") (some "m1"),
        pollToGetOutcome (get_message (fun _ => .resp failedMsg) 60)⟩ "a").error = none := by
  constructor
  · decide
  · decide

/-- C4 (amended): when the synthesis stage sees no normalized responses, the
final report is the error dictionary whose message is the literal
`"No valid responses to synthesize"` (not `"no_valid_responses"`), while the
top-level result keeps the success shape. -/
theorem C4_empty_synthesis_report (env : OrchestratorEnv) (query q : String)
    (angles : List String) (n : Nat) (report : SynthesizedReport)
    (h : orchestrate_query env query = .ok q angles n report []) :
    report = .err "No valid responses to synthesize" := by
  unfold orchestrate_query at h
  cases hllm : analyze_query_angles env.angleLLM with
  | error e =>
    rw [hllm] at h
    exact OrchestrationResult.noConfusion h
  | ok angles0 =>
    rw [hllm] at h
    injection h with h1 h2 h3 h4 h5
    rw [h5] at h4
    rw [← h4]
    rfl

/-- C4 witness: the amended report error at `c4Env`. -/
theorem C4_empty_synthesis_report_witness :
    SynthesizedReport.err "No valid responses to synthesize" =
      .err "No valid responses to synthesize" :=
  C4_empty_synthesis_report c4Env "q" "q" ["only angle"] 0
    (.err "No valid responses to synthesize") (by decide)

/-- C4 counterexample: every branch fails, synthesis runs on empty input, and
the report error string is `"No valid responses to synthesize"`, which is not
the claimed `"no_valid_responses"` (the success shape at top level is as
claimed). -/
theorem C4_counterexample :
    orchestrate_query c4Env "q" =
      .ok "q" ["only angle"] 0 (.err "No valid responses to synthesize") [] ∧
    "No valid responses to synthesize" ≠ "no_valid_responses" := by
  constructor
  · decide
  · decide

/-- C5: if exactly one angle's conversation-creation call raises and every
other branch succeeds, the fan-out yields one outcome per input angle in
submission order, exactly the failing index carries a non-null `error`, and
no exception escapes (`process_angle` totalizes the raised exception into the
failure dictionary). -/
theorem C5_fanout_isolation (angles : List String) (env : Nat → AngleEnv)
    (j : Nat) (e : String)
    (hjlt : j < angles.length)
    (hjf : (env j).create = .exn e)
    (hok : ∀ i, i < angles.length → i ≠ j →
      ∃ cid mid d, env i = ⟨.ok (some cid) (some mid), .ok d⟩ ∧ cid ≠ "" ∧ mid ≠ "") :
    (fanOut env angles).length = angles.length ∧
    ∀ i a, angles[i]? = some a →
      ∃ res, (fanOut env angles)[i]? = some res ∧ res.angle = a ∧
        (res.error.isSome ↔ i = j) := by
  refine ⟨fanOut_length env angles, ?_⟩
  intro i a hia
  have hfi : (fanOut env angles)[i]? = some (process_angle (env i) a) := by
    rw [fanOut_getElem?, hia]
    rfl
  refine ⟨process_angle (env i) a, hfi, process_angle_angle _ _, ?_⟩
  by_cases hij : i = j
  · subst hij
    simp only [process_angle, hjf]
    simp
  · have hilt : i < angles.length := (List.getElem?_eq_some_iff.mp hia).1
    obtain ⟨cid, mid, d, henv, hcid, hmid⟩ := hok i hilt hij
    have hc : (!pyTruthyStr (some cid)) = false := by
      simp [pyTruthyStr]
      exact hcid
    have hm2 : (!pyTruthyStr (some mid)) = false := by
      simp [pyTruthyStr]
      exact hmid
    rw [henv]
    simp only [process_angle]
    rw [hc, if_neg Bool.false_ne_true, hm2, if_neg Bool.false_ne_true]
    simp [hij]

/-- C5 witness: two angles with branch 0 failing at conversation creation. -/
theorem C5_fanout_isolation_witness :
    (fanOut c5Env ["first angle", "second angle"]).length = 2 ∧
    ∃ res, (fanOut c5Env ["first angle", "second angle"])[1]? = some res ∧
      res.angle = "second angle" ∧ (res.error.isSome ↔ 1 = 0) := by
  have h := C5_fanout_isolation ["first angle", "second angle"] c5Env 0 "connection refused"
    (by decide) (by decide)
    (by
      intro i hi hne
      refine ⟨"conv", "msg", goodMsg, ?_, by decide, by decide⟩
      have hi2 : i < 2 := by simpa using hi
      interval_cases i
      · exact absurd rfl hne
      · rfl)
  exact ⟨h.1, h.2 1 "second angle" (by decide)⟩

/-- C6: the first fetch observing state `COMPLETED` ends the polling loop and
its payload is the returned success result; with all earlier fetches
non-terminal, a `COMPLETED` at fetch index k (k < max_retries) means exactly
k+1 fetches are performed. -/
theorem C6_first_completed_fetch (f : Nat → Fetch) (m k : Nat) (r : ApiMessage)
    (hk : k < m)
    (hpre : ∀ i, i < k → inProgressFetch (f i) = true)
    (hfk : f k = .resp r) (hcomp : stateOf r = "COMPLETED") :
    get_message f m = .ret r (k + 1) := by
  have h := getMessageLoop_completed f r hcomp k 0 m none hk
    (by
      intro i hi
      rw [Nat.zero_add]
      exact hpre i hi)
    (by
      rw [Nat.zero_add]
      exact hfk)
  rw [get_message, h, Nat.zero_add]

/-- C6 witness: the state sequence `PROCESSING, PROCESSING, COMPLETED` with
max_retries = 5 performs exactly 3 fetches and returns the `COMPLETED`
payload (the wait interval is unobservable in the model, matching
retry_interval = 0). -/
theorem C6_first_completed_fetch_witness :
    get_message c6Fetches 5 = .ret completedMsg 3 :=
  C6_first_completed_fetch c6Fetches 5 2 completedMsg (by decide)
    (by
      intro i hi
      interval_cases i <;> decide)
    (by decide) (by decide)

/-- C7: when every one of the max_retries fetches observes a non-terminal
state (max_retries ≥ 1), `get_message` returns the payload of the last fetch
instead of raising. -/
theorem C7_exhausted_budget_returns_last (f : Nat → Fetch) (rs : Nat → ApiMessage) (m : Nat)
    (hm : 1 ≤ m)
    (hall : ∀ i, i < m → f i = .resp (rs i) ∧ isTerminalState (stateOf (rs i)) = false) :
    get_message f m = .ret (rs (m - 1)) m := by
  have h := getMessageLoop_exhaust f rs m 0 none hm
    (by
      intro i hi
      rw [Nat.zero_add]
      exact hall i hi)
  rw [get_message, h, Nat.zero_add]

/-- C7 witness: `PROCESSING` repeated 5 times with max_retries = 5 returns the
last fetched non-terminal payload after 5 fetches. -/
theorem C7_exhausted_budget_returns_last_witness :
    get_message (fun _ => .resp processingMsg) 5 = .ret processingMsg 5 :=
  C7_exhausted_budget_returns_last (fun _ => .resp processingMsg) (fun _ => processingMsg) 5
    (by decide)
    (by
      intro i hi
      refine ⟨rfl, ?_⟩
      show isTerminalState (stateOf processingMsg) = false
      decide)

/-- C9: with max_retries = 0 the polling loop never runs and the final
`return response_data` reads an unassigned local, modelled as the
`nameError` outcome; with max_retries ≥ 1 every returned payload is one that
some fetch actually produced. -/
theorem C9_zero_budget_unbound_local (f : Nat → Fetch) :
    get_message f 0 = .nameError ∧
    ∀ m r c, get_message f m = .ret r c → ∃ i, i < m ∧ f i = .resp r := by
  constructor
  · rfl
  · intro m r c h
    have hres := getMessageLoop_ret_fetched f m 0 none r c
      (by
        intro r0 h0
        exact Option.noConfusion h0) h
    simpa using hres

/-- C9 witness: the unbound-local outcome at budget 0, and the fetched-payload
property instantiated at a single completed fetch. -/
theorem C9_zero_budget_unbound_local_witness :
    get_message (fun _ => .resp completedMsg) 0 = .nameError ∧
    ∃ i, i < 1 ∧ (fun _ => Fetch.resp completedMsg) i = .resp completedMsg :=
  ⟨(C9_zero_budget_unbound_local (fun _ => .resp completedMsg)).1,
   (C9_zero_budget_unbound_local (fun _ => .resp completedMsg)).2 1 completedMsg 1 (by decide)⟩

/-- C8: the synthesized report's source list keeps, for each (truthy)
sourceId, exactly the first source encountered walking responses and their
sources in order, regardless of other field differences; every sourceId
appears at most once, and re-running the deduplication on its own output is
the identity. -/
theorem C8_dedup_first_occurrence (rs : List NormalizedResponse) :
    (∀ sid, sid ≠ "" →
      (collectSources rs).filter (byId sid) = ((allSourcesOf rs).filter (byId sid)).take 1) ∧
    (∀ sid, ((collectSources rs).filter (byId sid)).length ≤ 1) ∧
    dedupSources (collectSources rs) = collectSources rs := by
  have hc : collectSources rs = dedupRec [] (allSourcesOf rs) := collectSources_eq rs
  refine ⟨?_, ?_, ?_⟩
  · intro sid hsid
    rw [hc]
    exact dedupRec_filter_first sid hsid (allSourcesOf rs) [] rfl
  · intro sid
    by_cases hsid : sid = ""
    · subst hsid
      rw [hc, dedupRec_filter_blank]
      simp
    · rw [hc, dedupRec_filter_first sid hsid (allSourcesOf rs) [] rfl]
      exact List.length_take_le 1 _
  · rw [hc, dedupSources_eq, dedupRec_idem]

/-- C8 witness: two responses sharing sourceId `"A"` with different fields;
the kept occurrence is the first one encountered. -/
theorem C8_dedup_first_occurrence_witness :
    "A" ≠ "" ∧
    (collectSources [mkResp [srcA, srcNone], mkResp [srcA2, srcB]]).filter (byId "A")
      = ((allSourcesOf [mkResp [srcA, srcNone], mkResp [srcA2, srcB]]).filter (byId "A")).take 1 :=
  ⟨by decide,
   (C8_dedup_first_occurrence [mkResp [srcA, srcNone], mkResp [srcA2, srcB]]).1 "A" (by decide)⟩

/-- C10: only sources with a truthy `sourceId` (present, non-None, non-empty)
can appear in the synthesized report's source list; any source whose
`sourceId` is absent or empty is silently excluded, even when unique. -/
theorem C10_only_truthy_source_ids (rs : List NormalizedResponse) (s : Source)
    (hmem : s ∈ collectSources rs) :
    ∃ sid, s.sourceId = some sid ∧ sid ≠ "" := by
  rw [collectSources_eq] at hmem
  exact dedupRec_mem (allSourcesOf rs) [] s hmem

/-- C10 witness: in a response whose blank-id and missing-id sources are
dropped, the surviving member has a truthy id. -/
theorem C10_only_truthy_source_ids_witness :
    ∃ sid, srcA.sourceId = some sid ∧ sid ≠ "" :=
  C10_only_truthy_source_ids [mkResp [srcBlank, srcNone, srcA]] srcA (by decide)

end Pilot
